import Mathlib

/-!
# Harmony Hub — verification of the data-consistency and social-graph layer

A shallow embedding of the core services of the Harmony Hub concert-logging
application: the connection manager's retry policy
(`src/services/firebaseConnection.ts`), the concert store and entity
resolution (`src/services/concertService.ts`), the atomic like-toggle and
comment-append cloud functions (`src/functions/src/index.ts`), the feed
assembler (`src/services/feedService.ts`) and the search service
(`src/services/searchService.ts`).

The store is modelled as explicit lists of documents; each service function
becomes a pure state transformer.  JavaScript numbers used as counters are
modelled as `Int`; store-assigned document ids come from a `nextId` counter.
Fallible operations return `Except`.
-/

namespace HarmonyHub

/-! ## JavaScript string helpers -/

/-- `String.includes` of JavaScript on the underlying character lists:
`containsSub hay needle` is true iff `needle` occurs contiguously in `hay`. -/
def containsSub : List Char → List Char → Bool
  | hay, needle =>
    needle.isPrefixOf hay ||
      match hay with
      | [] => false
      | _ :: t => containsSub t needle

/-- `hay.includes(needle)` for strings. -/
def strIncludes (hay needle : String) : Bool :=
  containsSub hay.toList needle.toList

/-- `s.toLowerCase()` on the underlying character list. -/
def strToLower (s : String) : String :=
  String.mk (s.data.map Char.toLower)

/-- `s.trim()` on the underlying character list: strip whitespace from
both ends. -/
def strTrim (s : String) : String :=
  String.mk (((s.data.dropWhile Char.isWhitespace).reverse.dropWhile
    Char.isWhitespace).reverse)

/-- JavaScript `x || dflt` applied to a possibly-missing, possibly-empty
string field: `none` and `""` are falsy and yield the default. -/
def jsOrString (x : Option String) (dflt : String) : String :=
  match x with
  | none => dflt
  | some s => if s = "" then dflt else s

/-- JavaScript `ref.split('/').pop() || ''`: the last path component. -/
def lastPathComponent (ref : String) : String :=
  match (ref.splitOn "/").getLast? with
  | none => ""
  | some s => s

/-! ## Connection manager: error classification and `executeWithRetry`
(`src/services/firebaseConnection.ts`, lines 98–159) -/

/-- A thrown error as observed by the connection manager: its optional
`code` and `message` fields (absent fields read as `""`, mirroring
`error?.code?.toLowerCase() || ''`). -/
structure ErrInfo where
  code : String
  message : String
deriving Repr, DecidableEq

/-- The fixed list of transient Firestore error codes
(`networkErrorCodes` in `isNetworkError`). -/
def networkErrorCodes : List String :=
  ["unavailable", "deadline-exceeded", "cancelled", "failed-precondition"]

/-- `FirebaseConnectionManager.isNetworkError`: the lowercased code contains
one of the fixed codes, or the lowercased message contains
"offline"/"network"/"connection". -/
def isNetworkError (e : ErrInfo) : Bool :=
  networkErrorCodes.any (fun c => strIncludes (strToLower e.code) c) ||
    strIncludes (strToLower e.message) "offline" ||
    strIncludes (strToLower e.message) "network" ||
    strIncludes (strToLower e.message) "connection"

/-- Outcome of `executeWithRetry` in the `connected` state: the final result,
the number of times the operation was invoked, and the list of delays (in
ms) slept between attempts, in order. -/
structure RetryOutcome (α : Type) where
  result : Except ErrInfo α
  calls : Nat
  delays : List Nat
deriving Repr

/-- The retry loop body of `executeWithRetry` in the `connected` state.
`op n` is the outcome of the `n`-th invocation of the operation (attempts
are numbered from 1, as in the source's `for` loop).  `fuel` is the number
of attempts still allowed after the current one (`maxRetries - attempt`);
when a network-classified error occurs with `fuel = 0` the loop exits and
the last error is thrown, otherwise the manager sleeps
`retryDelay * attempt` and retries. -/
def retryGo (op : Nat → Except ErrInfo α) (retryDelay : Nat) :
    Nat → Nat → RetryOutcome α
  | attempt, fuel =>
    match op attempt with
    | .ok a => ⟨.ok a, 1, []⟩
    | .error e =>
      if isNetworkError e then
        match fuel with
        | 0 => ⟨.error e, 1, []⟩
        | fuel' + 1 =>
          let rest := retryGo op retryDelay (attempt + 1) fuel'
          ⟨rest.result, rest.calls + 1, retryDelay * attempt :: rest.delays⟩
      else ⟨.error e, 1, []⟩

/-- `maxRetries` of the connection manager. -/
def maxRetries : Nat := 3

/-- `retryDelay` (the base delay, ms) of the connection manager. -/
def baseRetryDelay : Nat := 1000

/-- `executeWithRetry(operation)` in the `connected` state: up to
`maxRetries` invocations starting at attempt 1. -/
def executeWithRetry (op : Nat → Except ErrInfo α) : RetryOutcome α :=
  retryGo op baseRetryDelay 1 (maxRetries - 1)

/-! ## Data model: the Firestore collections as lists of documents.
Document ids are opaque store-assigned strings, modelled by a `nextId`
counter.  JavaScript numbers in counters and timestamps are `Int`.
Fields a document may lack (`artistName`/`venueName` on concerts,
`displayName` on users) are `Option String`. -/

structure UserDoc where
  uid : String
  displayName : Option String
  loggedConcertsCount : Int
deriving Repr, DecidableEq

structure ArtistDoc where
  id : String
  name : String
  createdAt : Int
deriving Repr, DecidableEq

structure VenueDoc where
  id : String
  name : String
  city : String
  state : String
  country : String
  createdAt : Int
deriving Repr, DecidableEq

structure ConcertDoc where
  id : String
  artistRef : String
  venueRef : String
  date : Int
  userRef : String
  rating : Int
  notes : String
  createdAt : Int
  updatedAt : Int
  artistName : Option String
  venueName : Option String
deriving Repr, DecidableEq

structure CommentDoc where
  id : String
  userRef : String
  text : String
  createdAt : Int
deriving Repr, DecidableEq

/-- A review document together with its `likedBy` and `comments`
sub-collections.  `likedBy` is the list of user ids owning a membership
record. -/
structure ReviewDoc where
  id : String
  concertRef : String
  userRef : String
  text : String
  rating : Int
  createdAt : Int
  updatedAt : Int
  likesCount : Int
  commentsCount : Int
  likedBy : List String
  comments : List CommentDoc
deriving Repr, DecidableEq

/-- The persistent store: the five top-level collections plus the per-user
`following` edges `(followerId, followeeId)`. -/
structure Store where
  users : List UserDoc
  artists : List ArtistDoc
  venues : List VenueDoc
  concerts : List ConcertDoc
  reviews : List ReviewDoc
  following : List (String × String)
  nextId : Nat
deriving Repr, DecidableEq

/-- Next store-assigned document id. -/
def freshId (s : Store) : String :=
  "d" ++ toString s.nextId

/-! ## Entity resolution (`src/services/concertService.ts`, lines 25–71) -/

/-- `findOrCreateArtist(artistName)`: exact-match query on the `name` field;
return the existing document's path, or create a new artist and return its
path.  `now` stands for `Timestamp.now()`. -/
def findOrCreateArtist (artistName : String) (now : Int) (s : Store) :
    Store × String :=
  match s.artists.find? (fun a => a.name == artistName) with
  | some a => (s, "artists/" ++ a.id)
  | none =>
    let id := freshId s
    ({ s with artists := s.artists ++ [⟨id, artistName, now⟩],
               nextId := s.nextId + 1 },
     "artists/" ++ id)

/-- `findOrCreateVenue(venueName)`: exact-match query on the `name` field;
on creation, city/state/country are the placeholder "Unknown". -/
def findOrCreateVenue (venueName : String) (now : Int) (s : Store) :
    Store × String :=
  match s.venues.find? (fun v => v.name == venueName) with
  | some v => (s, "venues/" ++ v.id)
  | none =>
    let id := freshId s
    ({ s with venues :=
        s.venues ++ [⟨id, venueName, "Unknown", "Unknown", "Unknown", now⟩],
               nextId := s.nextId + 1 },
     "venues/" ++ id)

/-! ## Concert store (`src/services/concertService.ts`, lines 73–190) -/

/-- `logConcert(userId, artistName, venueName, date, rating, notes)`:
resolve artist and venue, create the concert document (note: it carries
`artistRef`/`venueRef` but no `artistName`/`venueName` field), then
`updateDoc` the user's `loggedConcertsCount` with `increment(1)`
(which fails when the user document does not exist).  The analytics event
is a no-op on the store.  Returns the new store and the concert id. -/
def logConcert (userId artistName venueName : String) (date rating : Int)
    (notes : Option String) (now : Int) (s : Store) :
    Except String (Store × String) :=
  let a := findOrCreateArtist artistName now s
  let v := findOrCreateVenue venueName now a.1
  let s2 := v.1
  let cid := freshId s2
  let concert : ConcertDoc :=
    { id := cid, artistRef := a.2, venueRef := v.2, date := date,
      userRef := "users/" ++ userId, rating := rating,
      notes := jsOrString notes "", createdAt := now, updatedAt := now,
      artistName := none, venueName := none }
  let s3 := { s2 with concerts := s2.concerts ++ [concert],
                      nextId := s2.nextId + 1 }
  if s3.users.any (fun u => u.uid == userId) then
    .ok ({ s3 with users := s3.users.map (fun u =>
            if u.uid == userId then
              { u with loggedConcertsCount := u.loggedConcertsCount + 1 }
            else u) }, cid)
  else
    .error "not-found"

/-- `getConcertById(concertId)`: point lookup in the `concerts` collection. -/
def getConcertById (concertId : String) (s : Store) : Option ConcertDoc :=
  s.concerts.find? (fun c => c.id == concertId)

/-- JavaScript `s.endsWith(post)` on the underlying character lists. -/
def strEndsWith (s post : String) : Bool :=
  post.toList.isSuffixOf s.toList

/-- `submitReview(concertId, userId, rating, text)`: load the concert
(missing concert is a hard error); the stored rating is the concert's own
rating when `concert.userRef.endsWith(userId)`, else the caller-supplied
rating; `text` is trimmed; counters start at 0. -/
def submitReview (concertId userId : String) (rating : Int) (text : String)
    (now : Int) (s : Store) : Except String (Store × String) :=
  match getConcertById concertId s with
  | none => .error "Concert not found"
  | some concert =>
    let reviewRating :=
      if strEndsWith concert.userRef userId then concert.rating else rating
    let rid := freshId s
    let review : ReviewDoc :=
      { id := rid, concertRef := "concerts/" ++ concertId,
        userRef := "users/" ++ userId, text := strTrim text,
        rating := reviewRating, createdAt := now, updatedAt := now,
        likesCount := 0, commentsCount := 0, likedBy := [], comments := [] }
    .ok ({ s with reviews := s.reviews ++ [review], nextId := s.nextId + 1 },
         rid)

/-! ## Atomic engagement operations (`src/functions/src/index.ts`) -/

/-- Apply `f` to the review with the given id (Firestore update by ref). -/
def updateReview (s : Store) (reviewId : String) (f : ReviewDoc → ReviewDoc) :
    Store :=
  { s with reviews := s.reviews.map (fun r =>
      if r.id == reviewId then f r else r) }

/-- Result payload of the `likeReview` callable. -/
structure LikeResponse where
  action : String
  likesCount : Int
deriving Repr, DecidableEq

/-- The `likeReview` callable function.  `auth` is `context.auth` (the
authenticated uid, if any).  Sequential semantics; the membership read,
the transaction, and the post-transaction `getLikesCount` re-read all see
one consistent store.  Errors leave the store unchanged (the transaction
rolls back); the transaction's `not-found` is caught and re-thrown as
`internal`, as in the source's catch-all. -/
def likeReview (auth : Option String) (reviewId userId : String)
    (s : Store) : Store × Except String LikeResponse :=
  match auth with
  | none => (s, .error "unauthenticated")
  | some uid =>
    if reviewId = "" ∨ userId = "" then (s, .error "invalid-argument")
    else if userId ≠ uid then (s, .error "permission-denied")
    else
      match s.reviews.find? (fun r => r.id == reviewId) with
      | none => (s, .error "internal")
      | some r =>
        if r.likedBy.contains userId then
          let newCount := max 0 (r.likesCount - 1)
          (updateReview s reviewId (fun r0 =>
             { r0 with likesCount := newCount,
                       likedBy := r0.likedBy.erase userId }),
           .ok ⟨"unliked", newCount⟩)
        else
          let newCount := r.likesCount + 1
          (updateReview s reviewId (fun r0 =>
             { r0 with likesCount := newCount,
                       likedBy := r0.likedBy ++ [userId] }),
           .ok ⟨"liked", newCount⟩)

/-- The `addComment` callable function: validation (`invalid-argument` on
missing ids or empty/whitespace-only text), identity check
(`permission-denied`), then one transaction appending the trimmed comment
and incrementing `commentsCount`.  Errors leave the store unchanged. -/
def addComment (auth : Option String) (reviewId userId commentText : String)
    (now : Int) (s : Store) : Store × Except String Unit :=
  match auth with
  | none => (s, .error "unauthenticated")
  | some uid =>
    if reviewId = "" ∨ userId = "" ∨ commentText = "" ∨ strTrim commentText = ""
    then (s, .error "invalid-argument")
    else if userId ≠ uid then (s, .error "permission-denied")
    else
      match s.reviews.find? (fun r => r.id == reviewId) with
      | none => (s, .error "internal")
      | some _ =>
        let comment : CommentDoc :=
          { id := freshId s, userRef := "users/" ++ userId,
            text := strTrim commentText, createdAt := now }
        (updateReview { s with nextId := s.nextId + 1 } reviewId (fun r0 =>
           { r0 with comments := r0.comments ++ [comment],
                     commentsCount := r0.commentsCount + 1 }),
         .ok ())

/-! ## Review read path with index fallback
(`src/services/concertService.ts`, lines 229–318) -/

/-- Reviews whose `concertRef` points at the given concert
(the `where('concertRef', '==', ...)` filter). -/
def reviewsForConcert (s : Store) (concertId : String) : List ReviewDoc :=
  s.reviews.filter (fun r => r.concertRef == "concerts/" ++ concertId)

/-- Sort reviews by `createdAt` descending (`(a, b) => b.createdAt - a.createdAt`). -/
def sortReviewsByCreatedAtDesc (l : List ReviewDoc) : List ReviewDoc :=
  l.mergeSort (fun a b => decide (b.createdAt ≤ a.createdAt))

/-- `getConcertReviews(concertId)` (the body inside the retry wrapper).
`indexFailure` is the error thrown by the composite-index query, if any:
on success the store returns the matching reviews ordered by `createdAt`
descending and `usingFallback` is `false`; on an error whose message
includes "currently building" or "requires an index" the unordered
fallback query runs and is sorted in memory, `usingFallback` is `true`;
any other error is re-thrown. -/
def getConcertReviews (s : Store) (concertId : String)
    (indexFailure : Option ErrInfo) :
    Except ErrInfo (List ReviewDoc × Bool) :=
  match indexFailure with
  | none =>
    .ok (sortReviewsByCreatedAtDesc (reviewsForConcert s concertId), false)
  | some e =>
    if strIncludes e.message "currently building" then
      .ok (sortReviewsByCreatedAtDesc (reviewsForConcert s concertId), true)
    else if strIncludes e.message "requires an index" then
      .ok (sortReviewsByCreatedAtDesc (reviewsForConcert s concertId), true)
    else
      .error e

/-! ## Search service (`src/services/searchService.ts`) -/

/-- Lexicographic comparison of strings by code point, modelling the
store's ordering of string field values. -/
def charListLe : List Char → List Char → Bool
  | [], _ => true
  | _ :: _, [] => false
  | a :: as, b :: bs =>
    if a < b then true else if b < a then false else charListLe as bs

/-- `a ≤ b` on strings. -/
def strLe (a b : String) : Bool :=
  charListLe a.toList b.toList

/-- The high code point `''` used as the upper range sentinel. -/
def maxUnicodeSentinel : String := ""

/-- A range filter `field >= term && field <= term + ''` on an
optional field: documents missing the field are excluded from range
queries on it. -/
def inPrefixRange (term : String) (v : Option String) : Bool :=
  match v with
  | none => false
  | some x => strLe term x && strLe x (term ++ maxUnicodeSentinel)

/-- The concerts returned by one prefix-range query on an optional string
field, ordered by that field, capped at 10 (`orderBy(field), limit(10)`). -/
def concertFieldQuery (s : Store) (term : String)
    (field : ConcertDoc → Option String) : List ConcertDoc :=
  ((s.concerts.filter (fun c => inPrefixRange term (field c))).mergeSort
    (fun a b => strLe (jsOrString (field a) "") (jsOrString (field b) ""))).take 10

/-- `searchConcerts(searchTerm)`: prefix-range query on `artistName`, then
on `venueName`; venue results are appended skipping ids already present;
the final list is capped at 10. -/
def searchConcerts (s : Store) (term : String) : List ConcertDoc :=
  let concerts := concertFieldQuery s term (fun c => c.artistName)
  let byVenue := concertFieldQuery s term (fun c => c.venueName)
  let merged := byVenue.foldl (fun acc c =>
    if acc.any (fun c0 => c0.id == c.id) then acc else acc ++ [c]) concerts
  merged.take 10

/-! ## Feed assembler (`src/services/feedService.ts`) -/

/-- A feed item (`FeedItem` in `feedService.ts`); `itemType` is the
source's `type` field, `"concert_logged"` or `"review_posted"`. -/
structure FeedItem where
  id : String
  itemType : String
  userId : String
  userDisplayName : String
  concertId : String
  concertName : String
  artistName : String
  venueName : String
  reviewId : Option String
  timestamp : Int
deriving Repr, DecidableEq

/-- A JavaScript template-literal interpolation of a possibly-missing
field: `undefined` prints as "undefined". -/
def jsInterp (x : Option String) : String :=
  match x with
  | none => "undefined"
  | some s => s

/-- The store operations the feed pipeline performs, each of which may
throw.  `followingDocs` enumerates `users/{uid}/following`;
`recentConcerts`/`recentReviews` are the `userRef in …, orderBy createdAt
desc, limit 20` queries; `userByRef`/`concertByRef` are the point lookups
used for the display join. -/
structure FeedBackend where
  followingDocs : Except ErrInfo (List String)
  recentConcerts : List String → Except ErrInfo (List ConcertDoc)
  recentReviews : List String → Except ErrInfo (List ReviewDoc)
  userByRef : String → Except ErrInfo (Option UserDoc)
  concertByRef : String → Except ErrInfo (Option ConcertDoc)

/-- The fault-free backend over a concrete store for the given caller. -/
def FeedBackend.ofStore (s : Store) (uid : String) : FeedBackend where
  followingDocs :=
    .ok ((s.following.filter (fun e => e.1 == uid)).map (fun e => e.2))
  recentConcerts := fun paths =>
    .ok (((s.concerts.filter (fun c => paths.contains c.userRef)).mergeSort
      (fun a b => decide (b.createdAt ≤ a.createdAt))).take 20)
  recentReviews := fun paths =>
    .ok (((s.reviews.filter (fun r => paths.contains r.userRef)).mergeSort
      (fun a b => decide (b.createdAt ≤ a.createdAt))).take 20)
  userByRef := fun ref =>
    .ok (s.users.find? (fun u => ("users/" ++ u.uid) == ref))
  concertByRef := fun ref =>
    .ok (s.concerts.find? (fun c => ("concerts/" ++ c.id) == ref))

/-- `getFollowingUsers(userId)`: enumerate the following sub-collection;
any failure is caught and resolves to `[]`. -/
def getFollowingUsers (b : FeedBackend) : List String :=
  match b.followingDocs with
  | .ok l => l
  | .error _ => []

/-- The feed item built from a followed user's concert: user display name
via a point lookup degrading to "Unknown User"; artist/venue names read
off the concert document itself, degrading to "Unknown Artist"/"Unknown
Venue" when the field is missing or empty. -/
def concertFeedItem (b : FeedBackend) (c : ConcertDoc) :
    Except ErrInfo FeedItem :=
  match b.userByRef c.userRef with
  | .error e => .error e
  | .ok userOpt =>
    let userDisplayName :=
      match userOpt with
      | none => "Unknown User"
      | some u => jsOrString u.displayName "Unknown User"
    .ok { id := "concert_" ++ c.id, itemType := "concert_logged",
          userId := lastPathComponent c.userRef,
          userDisplayName := userDisplayName,
          concertId := c.id,
          concertName := jsInterp c.artistName ++ " at " ++ jsInterp c.venueName,
          artistName := jsOrString c.artistName "Unknown Artist",
          venueName := jsOrString c.venueName "Unknown Venue",
          reviewId := none, timestamp := c.createdAt }

/-- The feed item built from a followed user's review: user display name
and the parent concert's artist/venue names via point lookups, degrading
to placeholders. -/
def reviewFeedItem (b : FeedBackend) (r : ReviewDoc) :
    Except ErrInfo FeedItem :=
  match b.userByRef r.userRef with
  | .error e => .error e
  | .ok userOpt =>
    let userDisplayName :=
      match userOpt with
      | none => "Unknown User"
      | some u => jsOrString u.displayName "Unknown User"
    match b.concertByRef r.concertRef with
    | .error e => .error e
    | .ok concertOpt =>
      let artistName :=
        match concertOpt with
        | none => "Unknown Artist"
        | some c => jsOrString c.artistName "Unknown Artist"
      let venueName :=
        match concertOpt with
        | none => "Unknown Venue"
        | some c => jsOrString c.venueName "Unknown Venue"
      .ok { id := "review_" ++ r.id, itemType := "review_posted",
            userId := lastPathComponent r.userRef,
            userDisplayName := userDisplayName,
            concertId := lastPathComponent r.concertRef,
            concertName := artistName ++ " at " ++ venueName,
            artistName := artistName, venueName := venueName,
            reviewId := some r.id, timestamp := r.createdAt }

/-- The body of `getFeedActivities`: resolve the following set (itself
error-swallowing), short-circuit to `[]` when it is empty, fan out the two
capped queries, join display metadata per item, merge, sort by timestamp
descending and truncate to 30.  Any uncaught throw propagates. -/
def getFeedActivitiesE (b : FeedBackend) :
    Except ErrInfo (List FeedItem) :=
  let followingUserIds := getFollowingUsers b
  if followingUserIds.isEmpty then .ok []
  else
    let paths := followingUserIds.map (fun id => "users/" ++ id)
    match b.recentConcerts paths with
    | .error e => .error e
    | .ok concerts =>
      match concerts.mapM (concertFeedItem b) with
      | .error e => .error e
      | .ok concertItems =>
        match b.recentReviews paths with
        | .error e => .error e
        | .ok reviews =>
          match reviews.mapM (reviewFeedItem b) with
          | .error e => .error e
          | .ok reviewItems =>
            let activities := concertItems ++ reviewItems
            .ok ((activities.mergeSort
              (fun a b => decide (b.timestamp ≤ a.timestamp))).take 30)

/-- `getFeedActivities(userId)`: the pipeline above with its final
`.catch` resolving every failure to the empty list. -/
def getFeedActivities (b : FeedBackend) : List FeedItem :=
  match getFeedActivitiesE b with
  | .ok l => l
  | .error _ => []

/-! ## Claims C1 and C2: the like-toggle counter invariant and involution -/

/-- The C1 counter invariant: the stored counter equals the number of
membership records. -/
def likesInv (r : ReviewDoc) : Prop :=
  r.likesCount = (r.likedBy.length : Int)

/-- Store well-formedness for the review collection: document ids are
unique and every review satisfies the counter invariant. -/
def reviewsWF (s : Store) : Prop :=
  (s.reviews.map (fun r => r.id)).Nodup ∧
    (∀ r ∈ s.reviews, likesInv r) ∧
    ∀ r ∈ s.reviews, r.likedBy.Nodup

theorem updateReview_map_id (s : Store) (rid : String)
    (f : ReviewDoc → ReviewDoc) (hf : ∀ r, (f r).id = r.id) :
    (updateReview s rid f).reviews.map (fun r => r.id) =
      s.reviews.map (fun r => r.id) := by
  simp only [updateReview, List.map_map]
  congr 1
  funext r
  by_cases h : r.id = rid <;> simp [h, hf]

theorem find?_updateReview (s : Store) (rid : String)
    (f : ReviewDoc → ReviewDoc) (hf : ∀ r, (f r).id = r.id) (r : ReviewDoc)
    (hr : s.reviews.find? (fun r0 => r0.id == rid) = some r) :
    (updateReview s rid f).reviews.find? (fun r0 => r0.id == rid) =
      some (f r) := by
  have hrid : r.id = rid := by simpa using List.find?_some hr
  simp only [updateReview, List.find?_map]
  rw [show ((fun r0 : ReviewDoc => r0.id == rid) ∘ fun r0 =>
      if r0.id == rid then f r0 else r0) =
      (fun r0 : ReviewDoc => r0.id == rid) from by
    funext r0; by_cases h : r0.id = rid <;> simp [h, hf]]
  rw [hr]
  simp [hrid]

theorem mem_updateReview (s : Store) (rid : String)
    (f : ReviewDoc → ReviewDoc) (x : ReviewDoc)
    (hx : x ∈ (updateReview s rid f).reviews) :
    (∃ r0, r0 ∈ s.reviews ∧ r0.id = rid ∧ x = f r0) ∨
      (x ∈ s.reviews ∧ x.id ≠ rid) := by
  simp only [updateReview, List.mem_map] at hx
  obtain ⟨r0, hr0, hx⟩ := hx
  by_cases h : r0.id = rid
  · exact Or.inl ⟨r0, hr0, h, by rw [← hx, if_pos (by simpa using h)]⟩
  · refine Or.inr ?_
    rw [← hx, if_neg (by simpa using h)]
    exact ⟨hr0, h⟩

theorem likeReview_preserves_WF (auth : Option String)
    (reviewId userId : String) (s : Store) (h : reviewsWF s) :
    reviewsWF (likeReview auth reviewId userId s).1 := by
  obtain ⟨hnd, hinv, hnl⟩ := h
  unfold likeReview
  cases auth with
  | none => exact ⟨hnd, hinv, hnl⟩
  | some uid =>
    by_cases h1 : reviewId = "" ∨ userId = ""
    · simp only [if_pos h1]; exact ⟨hnd, hinv, hnl⟩
    by_cases h2 : userId ≠ uid
    · simp only [if_neg h1, if_pos h2]; exact ⟨hnd, hinv, hnl⟩
    simp only [if_neg h1, if_neg h2]
    cases hfind : s.reviews.find? (fun r => r.id == reviewId) with
    | none => exact ⟨hnd, hinv, hnl⟩
    | some r =>
      have hrmem : r ∈ s.reviews := List.mem_of_find?_eq_some hfind
      have hrid : r.id = reviewId := by simpa using List.find?_some hfind
      have hrinv := hinv r hrmem
      have huniq : ∀ r0 ∈ s.reviews, r0.id = reviewId → r0 = r := by
        intro r0 hr0m hr0id
        exact List.inj_on_of_nodup_map hnd hr0m hrmem (by rw [hr0id, hrid])
      by_cases hmem : r.likedBy.contains userId
      · simp only [if_pos hmem]
        refine ⟨?_, ?_, ?_⟩
        · rw [updateReview_map_id]
          · exact hnd
          · intro r0; rfl
        · intro x hx
          rcases mem_updateReview _ _ _ _ hx with ⟨r0, hr0m, hr0id, hxe⟩ | ⟨hxm, _⟩
          · have heq : r0 = r := huniq r0 hr0m hr0id
            subst heq
            subst hxe
            have hmem2 : userId ∈ r0.likedBy := by simpa using hmem
            have hlen : 1 ≤ r0.likedBy.length := List.length_pos_of_mem hmem2
            simp only [likesInv] at hrinv ⊢
            simp only [List.length_erase_of_mem hmem2, hrinv]
            have h3 : (1 : Int) ≤ (r0.likedBy.length : Int) := by exact_mod_cast hlen
            omega
          · exact hinv x hxm
        · intro x hx
          rcases mem_updateReview _ _ _ _ hx with ⟨r0, hr0m, hr0id, hxe⟩ | ⟨hxm, _⟩
          · have heq : r0 = r := huniq r0 hr0m hr0id
            subst heq
            subst hxe
            exact (hnl r0 hr0m).erase userId
          · exact hnl x hxm
      · simp only [if_neg hmem]
        refine ⟨?_, ?_, ?_⟩
        · rw [updateReview_map_id]
          · exact hnd
          · intro r0; rfl
        · intro x hx
          rcases mem_updateReview _ _ _ _ hx with ⟨r0, hr0m, hr0id, hxe⟩ | ⟨hxm, _⟩
          · have heq : r0 = r := huniq r0 hr0m hr0id
            subst heq
            subst hxe
            simp only [likesInv] at hrinv ⊢
            simp [hrinv]
          · exact hinv x hxm
        · intro x hx
          rcases mem_updateReview _ _ _ _ hx with ⟨r0, hr0m, hr0id, hxe⟩ | ⟨hxm, _⟩
          · have heq : r0 = r := huniq r0 hr0m hr0id
            subst heq
            subst hxe
            have hmem2 : userId ∉ r0.likedBy := by simpa using hmem
            simpa [List.nodup_append] using ⟨hnl r0 hr0m, hmem2⟩
          · exact hnl x hxm

/-- A sequence of like-toggle calls `(auth, reviewId, userId)`, applied to
the store in order. -/
def applyLikeToggles (ops : List (Option String × String × String))
    (s : Store) : Store :=
  ops.foldl (fun st o => (likeReview o.1 o.2.1 o.2.2 st).1) s

theorem applyLikeToggles_preserves_WF
    (ops : List (Option String × String × String)) (s : Store)
    (h : reviewsWF s) : reviewsWF (applyLikeToggles ops s) := by
  induction ops generalizing s with
  | nil => exact h
  | cons o t ih =>
    simp only [applyLikeToggles, List.foldl_cons]
    exact ih _ (likeReview_preserves_WF o.1 o.2.1 o.2.2 s h)

/-- C1: after any sequence of like-toggle operations on a well-formed
store, every review's `likesCount` equals the number of membership records
in its `likedBy` collection; and a single toggle, run as one atomic step
against the store, reads the current membership and counter, then deletes
the membership and floors the decremented counter at 0 when the caller is
a member, and creates the membership and increments the counter
otherwise. -/
theorem likeReview_counter_consistency
    (ops : List (Option String × String × String)) (s : Store)
    (h : reviewsWF s) :
    (∀ r ∈ (applyLikeToggles ops s).reviews,
      r.likesCount = (r.likedBy.length : Int)) ∧
    (∀ reviewId userId r, reviewId ≠ "" → userId ≠ "" →
      s.reviews.find? (fun r0 => r0.id == reviewId) = some r →
      (userId ∈ r.likedBy →
        (likeReview (some userId) reviewId userId s).1.reviews.find?
            (fun r0 => r0.id == reviewId) =
          some { r with likesCount := max 0 (r.likesCount - 1),
                        likedBy := r.likedBy.erase userId } ∧
        (likeReview (some userId) reviewId userId s).2 =
          .ok ⟨"unliked", max 0 (r.likesCount - 1)⟩) ∧
      (userId ∉ r.likedBy →
        (likeReview (some userId) reviewId userId s).1.reviews.find?
            (fun r0 => r0.id == reviewId) =
          some { r with likesCount := r.likesCount + 1,
                        likedBy := r.likedBy ++ [userId] } ∧
        (likeReview (some userId) reviewId userId s).2 =
          .ok ⟨"liked", r.likesCount + 1⟩)) := by
  constructor
  · intro r hr
    exact (applyLikeToggles_preserves_WF ops s h).2.1 r hr
  · intro reviewId userId r hrid huid hfind
    have hcond : ¬(reviewId = "" ∨ userId = "") := by
      rintro (h1 | h1) <;> [exact hrid h1; exact huid h1]
    constructor
    · intro hmem
      have hmemb : r.likedBy.contains userId = true := by simpa using hmem
      have hstep : likeReview (some userId) reviewId userId s =
          (updateReview s reviewId (fun r0 =>
              { r0 with likesCount := max 0 (r.likesCount - 1),
                        likedBy := r0.likedBy.erase userId }),
           .ok ⟨"unliked", max 0 (r.likesCount - 1)⟩) := by
        unfold likeReview
        simp [hcond, hfind, hmem]
      rw [hstep]
      refine ⟨?_, rfl⟩
      exact find?_updateReview s reviewId
        (fun r0 => { r0 with likesCount := max 0 (r.likesCount - 1),
                              likedBy := r0.likedBy.erase userId })
        (fun r0 => rfl) r hfind
    · intro hmem
      have hmemb : r.likedBy.contains userId = false := by simpa using hmem
      have hstep : likeReview (some userId) reviewId userId s =
          (updateReview s reviewId (fun r0 =>
              { r0 with likesCount := r.likesCount + 1,
                        likedBy := r0.likedBy ++ [userId] }),
           .ok ⟨"liked", r.likesCount + 1⟩) := by
        unfold likeReview
        simp [hcond, hfind, hmem]
      rw [hstep]
      refine ⟨?_, rfl⟩
      exact find?_updateReview s reviewId
        (fun r0 => { r0 with likesCount := r.likesCount + 1,
                              likedBy := r0.likedBy ++ [userId] })
        (fun r0 => rfl) r hfind

/-- C2: two consecutive like-toggle calls by the same user on a review
whose counter matches its membership collection restore the original
`likesCount` and the original membership (as a set of user ids): the
toggle is an involution. -/
theorem likeReview_involution (s : Store) (reviewId userId : String)
    (r : ReviewDoc)
    (hfind : s.reviews.find? (fun r0 => r0.id == reviewId) = some r)
    (hinv : r.likesCount = (r.likedBy.length : Int))
    (hnodup : r.likedBy.Nodup)
    (hrid : reviewId ≠ "") (huid : userId ≠ "") :
    ∃ r2,
      ((likeReview (some userId) reviewId userId
          (likeReview (some userId) reviewId userId s).1).1.reviews.find?
        (fun r0 => r0.id == reviewId)) = some r2 ∧
      r2.likesCount = r.likesCount ∧
      List.Perm r2.likedBy r.likedBy ∧
      (∀ x, x ∈ r2.likedBy ↔ x ∈ r.likedBy) := by
  have hcond : ¬(reviewId = "" ∨ userId = "") := by
    rintro (h1 | h1) <;> [exact hrid h1; exact huid h1]
  by_cases hmem : userId ∈ r.likedBy
  · have hstep1 : likeReview (some userId) reviewId userId s =
        (updateReview s reviewId (fun r0 =>
            { r0 with likesCount := max 0 (r.likesCount - 1),
                      likedBy := r0.likedBy.erase userId }),
         .ok ⟨"unliked", max 0 (r.likesCount - 1)⟩) := by
      unfold likeReview
      simp [hcond, hfind, hmem]
    have hfind1 : (likeReview (some userId) reviewId userId s).1.reviews.find?
        (fun r0 => r0.id == reviewId) =
        some { r with likesCount := max 0 (r.likesCount - 1),
                      likedBy := r.likedBy.erase userId } := by
      rw [hstep1]
      exact find?_updateReview s reviewId
        (fun r0 => { r0 with likesCount := max 0 (r.likesCount - 1),
                              likedBy := r0.likedBy.erase userId })
        (fun r0 => rfl) r hfind
    have hmem1 : userId ∉ (r.likedBy.erase userId) := hnodup.not_mem_erase
    have hstep2 : likeReview (some userId) reviewId userId
        (likeReview (some userId) reviewId userId s).1 =
        (updateReview (likeReview (some userId) reviewId userId s).1 reviewId
            (fun r0 =>
              { r0 with likesCount := max 0 (r.likesCount - 1) + 1,
                        likedBy := r0.likedBy ++ [userId] }),
         .ok ⟨"liked", max 0 (r.likesCount - 1) + 1⟩) := by
      conv_lhs => rw [likeReview]
      simp [hcond, hfind1, hmem1]
    refine ⟨{ r with likesCount := max 0 (r.likesCount - 1) + 1,
                     likedBy := r.likedBy.erase userId ++ [userId] }, ?_, ?_, ?_, ?_⟩
    · rw [hstep2]
      exact find?_updateReview _ reviewId
        (fun r0 => { r0 with likesCount := max 0 (r.likesCount - 1) + 1,
                              likedBy := r0.likedBy ++ [userId] })
        (fun r0 => rfl) _ hfind1
    · have hlen : 1 ≤ r.likedBy.length := List.length_pos_of_mem hmem
      have h1 : (1 : Int) ≤ (r.likedBy.length : Int) := by exact_mod_cast hlen
      simp only []
      omega
    · exact (List.perm_append_singleton _ _).trans (List.perm_cons_erase hmem).symm
    · intro x
      constructor
      · intro hx
        rcases List.mem_append.mp hx with hx | hx
        · exact List.mem_of_mem_erase hx
        · simp only [List.mem_singleton] at hx
          exact hx ▸ hmem
      · intro hx
        by_cases hxu : x = userId
        · exact List.mem_append.mpr (Or.inr (by simp [hxu]))
        · exact List.mem_append.mpr (Or.inl ((List.mem_erase_of_ne hxu).mpr hx))
  · have hstep1 : likeReview (some userId) reviewId userId s =
        (updateReview s reviewId (fun r0 =>
            { r0 with likesCount := r.likesCount + 1,
                      likedBy := r0.likedBy ++ [userId] }),
         .ok ⟨"liked", r.likesCount + 1⟩) := by
      unfold likeReview
      simp [hcond, hfind, hmem]
    have hfind1 : (likeReview (some userId) reviewId userId s).1.reviews.find?
        (fun r0 => r0.id == reviewId) =
        some { r with likesCount := r.likesCount + 1,
                      likedBy := r.likedBy ++ [userId] } := by
      rw [hstep1]
      exact find?_updateReview s reviewId
        (fun r0 => { r0 with likesCount := r.likesCount + 1,
                              likedBy := r0.likedBy ++ [userId] })
        (fun r0 => rfl) r hfind
    have hmem1 : userId ∈ r.likedBy ++ [userId] :=
      List.mem_append.mpr (Or.inr (by simp))
    have hstep2 : likeReview (some userId) reviewId userId
        (likeReview (some userId) reviewId userId s).1 =
        (updateReview (likeReview (some userId) reviewId userId s).1 reviewId
            (fun r0 =>
              { r0 with likesCount := max 0 (r.likesCount + 1 - 1),
                        likedBy := r0.likedBy.erase userId }),
         .ok ⟨"unliked", max 0 (r.likesCount + 1 - 1)⟩) := by
      conv_lhs => rw [likeReview]
      simp [hcond, hfind1, hmem1]
    refine ⟨{ r with likesCount := max 0 (r.likesCount + 1 - 1),
                     likedBy := (r.likedBy ++ [userId]).erase userId }, ?_, ?_, ?_, ?_⟩
    · rw [hstep2]
      exact find?_updateReview _ reviewId
        (fun r0 => { r0 with likesCount := max 0 (r.likesCount + 1 - 1),
                              likedBy := r0.likedBy.erase userId })
        (fun r0 => rfl) _ hfind1
    · have h0 : (0 : Int) ≤ (r.likedBy.length : Int) := by positivity
      simp only []
      omega
    · rw [List.erase_append_right _ hmem, List.erase_cons_head, List.append_nil]
    · intro x
      rw [List.erase_append_right _ hmem, List.erase_cons_head, List.append_nil]

/-- A concrete review used by the witnesses. -/
def sampleReview : ReviewDoc :=
  { id := "r1", concertRef := "concerts/c1", userRef := "users/u1",
    text := "great", rating := 5, createdAt := 10, updatedAt := 10,
    likesCount := 0, commentsCount := 0, likedBy := [], comments := [] }

/-- A concrete store used by the witnesses. -/
def sampleStore : Store :=
  { users := [⟨"u1", some "Alice", 0⟩], artists := [], venues := [],
    concerts := [], reviews := [sampleReview], following := [], nextId := 0 }

/-- Witness for C1 at a concrete store and toggle sequence: after "u2"
toggles once, the review's counter 1 matches its one-element membership. -/
theorem likeReview_counter_consistency_witness :
    ({ sampleReview with likesCount := 1,
                         likedBy := ["u2"] } : ReviewDoc).likesCount =
      (({ sampleReview with likesCount := 1,
                            likedBy := ["u2"] } : ReviewDoc).likedBy.length :
        Int) :=
  (likeReview_counter_consistency [(some "u2", "r1", "u2")] sampleStore
    (by refine ⟨?_, ?_, ?_⟩ <;>
      simp [sampleStore, sampleReview, likesInv])).1 _ (by decide)

/-- Witness for C2 at a concrete store, review and user: two toggles by
"u2" restore the original review document. -/
theorem likeReview_involution_witness :
    ((likeReview (some "u2") "r1" "u2"
        (likeReview (some "u2") "r1" "u2" sampleStore).1).1.reviews.find?
      (fun r0 => r0.id == "r1")) = some sampleReview := by
  obtain ⟨r2, hfind, -, -, -⟩ := likeReview_involution sampleStore "r1" "u2"
    sampleReview (by simp [sampleStore, sampleReview])
    (by simp [sampleReview]) (by simp [sampleReview]) (by decide) (by decide)
  have hcalc : ((likeReview (some "u2") "r1" "u2"
      (likeReview (some "u2") "r1" "u2" sampleStore).1).1.reviews.find?
        (fun r0 => r0.id == "r1")) = some sampleReview := by decide
  exact hcalc

/-! ## Claim C4: the retry bound -/

/-- C4: in the connected state, an operation that always throws a
transient-classified error is invoked exactly `maxRetries = 3` times, with
a sleep of `retryDelay * attemptNumber` between consecutive attempts, and
the final error propagates; an operation whose first throw is not
transient-classified is invoked exactly once and its error propagates
immediately. -/
theorem executeWithRetry_bound {α : Type} (op : Nat → Except ErrInfo α)
    (e : Nat → ErrInfo) :
    ((∀ n, op n = .error (e n)) → (∀ n, isNetworkError (e n) = true) →
      executeWithRetry op =
        ⟨.error (e 3), 3, [baseRetryDelay * 1, baseRetryDelay * 2]⟩) ∧
    (∀ e1, op 1 = .error e1 → isNetworkError e1 = false →
      executeWithRetry op = ⟨.error e1, 1, []⟩) := by
  constructor
  · intro hop hnet
    simp [executeWithRetry, maxRetries, retryGo, hop 1, hop 2, hop 3,
      hnet 1, hnet 2, hnet 3]
  · intro e1 h1 hn
    simp [executeWithRetry, maxRetries, retryGo, h1, hn]

/-- Witness for C4: a concrete always-transient operation runs 3 times with
delays 1000 and 2000 ms; a concrete non-transient operation runs once. -/
theorem executeWithRetry_bound_witness :
    (executeWithRetry (α := Unit) (fun _ => .error ⟨"unavailable", ""⟩) =
      ⟨.error ⟨"unavailable", ""⟩, 3, [1000, 2000]⟩) ∧
    (executeWithRetry (α := Unit) (fun _ => .error ⟨"internal", "boom"⟩) =
      ⟨.error ⟨"internal", "boom"⟩, 1, []⟩) := by
  constructor
  · have h := (executeWithRetry_bound (α := Unit)
      (fun _ => .error ⟨"unavailable", ""⟩) (fun _ => ⟨"unavailable", ""⟩)).1
      (fun _ => rfl) (fun _ => by decide)
    simpa [baseRetryDelay] using h
  · exact (executeWithRetry_bound (α := Unit)
      (fun _ => .error ⟨"internal", "boom"⟩) (fun _ => ⟨"internal", "boom"⟩)).2
      ⟨"internal", "boom"⟩ rfl (by decide)

/-! ## Claim C3: the self-review rating lock -/

/-- A concert owned by user `u1`, with the owner's rating 5. -/
def ownerConcert : ConcertDoc :=
  { id := "c1", artistRef := "artists/a1", venueRef := "venues/v1", date := 0,
    userRef := "users/u1", rating := 5, notes := "", createdAt := 0,
    updatedAt := 0, artistName := none, venueName := none }

/-- A store holding `ownerConcert`. -/
def ownerConcertStore : Store :=
  { users := [⟨"u1", some "Alice", 1⟩], artists := [], venues := [],
    concerts := [ownerConcert], reviews := [], following := [], nextId := 0 }

/-- C3 counterexample: user "1" is not the owner of concert "c1" (owned by
"u1"), yet the review stored for caller "1" with supplied rating 2 carries
the concert's rating 5, because the source compares the owner by
`concert.userRef.endsWith(userId)` and "users/u1" ends with "1". -/
theorem submitReview_nonowner_counterexample :
    "1" ≠ "u1" ∧ ownerConcert.userRef = "users/u1" ∧
    ∃ s1 rid,
      submitReview "c1" "1" 2 "nice" 7 ownerConcertStore = .ok (s1, rid) ∧
      ∃ r, s1.reviews = [r] ∧ r.userRef = "users/1" ∧ r.rating = 5 ∧
        (5 : Int) ≠ 2 := by
  refine ⟨by decide, rfl, ?_⟩
  refine ⟨_, _, rfl, ?_⟩
  refine ⟨_, rfl, ?_, ?_, by decide⟩
  · rfl
  · rfl

/-- C3 (amended): `submitReview` on an existing concert stores a review
whose rating is the concert's own rating whenever the concert's `userRef`
path ends with the caller's `userId` (in particular whenever the caller is
the owner, whose `userRef` is `users/` followed by the owner id), and the
caller-supplied rating otherwise; the text is stored trimmed. -/
theorem submitReview_rating_spec (concertId userId : String) (rating : Int)
    (text : String) (now : Int) (s : Store) (c : ConcertDoc)
    (hc : getConcertById concertId s = some c) :
    ∃ s1,
      submitReview concertId userId rating text now s = .ok (s1, freshId s) ∧
      s1.reviews = s.reviews ++
        [{ id := freshId s, concertRef := "concerts/" ++ concertId,
           userRef := "users/" ++ userId, text := strTrim text,
           rating := if strEndsWith c.userRef userId then c.rating else rating,
           createdAt := now, updatedAt := now, likesCount := 0,
           commentsCount := 0, likedBy := [], comments := [] }] ∧
      (c.userRef = "users/" ++ userId → strEndsWith c.userRef userId = true) := by
  unfold submitReview
  rw [hc]
  refine ⟨_, rfl, rfl, ?_⟩
  intro href
  rw [href]
  simp only [strEndsWith, String.toList, List.isSuffixOf_iff_suffix,
    String.data_append]
  exact List.suffix_append _ _

/-- The reviews stored in a `submitReview` result, for stating closed
facts about the returned store. -/
def reviewsOfResult (x : Except String (Store × String)) : List ReviewDoc :=
  match x with
  | .ok (st, _) => st.reviews
  | .error _ => []

/-- Witness for C3's amended theorem at a concrete store: the owner "u1"
reviewing their own concert gets the concert's rating 5, not the supplied
rating 1. -/
theorem submitReview_rating_spec_witness :
    reviewsOfResult (submitReview "c1" "u1" 1 "wow" 7 ownerConcertStore) =
      ownerConcertStore.reviews ++
        [⟨"d0", "concerts/" ++ "c1", "users/" ++ "u1", strTrim "wow", 5, 7, 7,
          0, 0, [], []⟩] := by
  obtain ⟨s1, heq, hrev, himp⟩ := submitReview_rating_spec "c1" "u1" 1 "wow" 7
    ownerConcertStore ownerConcert rfl
  rw [show reviewsOfResult (submitReview "c1" "u1" 1 "wow" 7
      ownerConcertStore) = s1.reviews from by rw [heq]; rfl]
  rw [hrev]
  simp only [himp rfl, if_true]
  rfl

/-! ## Claims C6 and C7: concert logging and entity deduplication -/

/-- A store containing exactly one user with zero logged concerts and no
other documents. -/
def freshStore (userId : String) (displayName : Option String) : Store :=
  { users := [⟨userId, displayName, 0⟩], artists := [], venues := [],
    concerts := [], reviews := [], following := [], nextId := 0 }

/-- C6: a successful `logConcert` on a fresh store creates exactly one
artist with the given name, exactly one venue with the given name and
"Unknown" city/state/country, exactly one concert carrying the given
rating, and increments the owner's `loggedConcertsCount` from 0 to 1. -/
theorem logConcert_fresh_store (userId artistName venueName : String)
    (dn : Option String) (date rating now : Int) (notes : Option String) :
    ∃ s1 cid,
      logConcert userId artistName venueName date rating notes now
        (freshStore userId dn) = .ok (s1, cid) ∧
      (∃ aid, s1.artists = [⟨aid, artistName, now⟩]) ∧
      (∃ vid, s1.venues =
        [⟨vid, venueName, "Unknown", "Unknown", "Unknown", now⟩]) ∧
      (∃ c, s1.concerts = [c] ∧ c.id = cid ∧ c.rating = rating ∧
        c.userRef = "users/" ++ userId) ∧
      s1.users = [⟨userId, dn, 1⟩] := by
  have heq : logConcert userId artistName venueName date rating notes now
      (freshStore userId dn) = .ok
      (({ users := [⟨userId, dn, 1⟩],
          artists := [⟨"d0", artistName, now⟩],
          venues := [⟨"d1", venueName, "Unknown", "Unknown", "Unknown", now⟩],
          concerts := [({ id := "d2", artistRef := "artists/d0",
                          venueRef := "venues/d1", date := date,
                          userRef := "users/" ++ userId, rating := rating,
                          notes := jsOrString notes "", createdAt := now,
                          updatedAt := now,
                          artistName := none, venueName := none } : ConcertDoc)],
          reviews := [], following := [], nextId := 3 } : Store), "d2") := by
    unfold logConcert findOrCreateArtist findOrCreateVenue freshStore freshId
    simp
    decide
  exact ⟨_, _, heq, ⟨"d0", rfl⟩, ⟨"d1", rfl⟩, ⟨_, rfl, rfl, rfl, rfl⟩, rfl⟩

/-- C7: entity resolution is a case-sensitive exact-match find-or-create
(an existing record of the same name is returned and nothing is created;
otherwise exactly one record is created, with "Unknown" placeholders for a
venue's city/state/country), so two sequential `logConcert` calls with the
same artist and venue names create exactly one artist and one venue in
total, shared by both concerts. -/
theorem findOrCreate_exact_match_reuse :
    (∀ s name now a, s.artists.find? (fun x => x.name == name) = some a →
      findOrCreateArtist name now s = (s, "artists/" ++ a.id)) ∧
    (∀ s name now, s.artists.find? (fun x => x.name == name) = none →
      findOrCreateArtist name now s =
        ({ s with artists := s.artists ++ [⟨freshId s, name, now⟩],
                  nextId := s.nextId + 1 }, "artists/" ++ freshId s)) ∧
    (∀ s name now v, s.venues.find? (fun x => x.name == name) = some v →
      findOrCreateVenue name now s = (s, "venues/" ++ v.id)) ∧
    (∀ s name now, s.venues.find? (fun x => x.name == name) = none →
      findOrCreateVenue name now s =
        ({ s with venues := s.venues ++
              [⟨freshId s, name, "Unknown", "Unknown", "Unknown", now⟩],
                  nextId := s.nextId + 1 }, "venues/" ++ freshId s)) ∧
    (∀ userId artistName venueName : String, ∀ dn n1 n2 : Option String,
      ∀ d1 r1 t1 d2 r2 t2 : Int,
      ∃ s1 cid1 s2 cid2,
        logConcert userId artistName venueName d1 r1 n1 t1
          (freshStore userId dn) = .ok (s1, cid1) ∧
        logConcert userId artistName venueName d2 r2 n2 t2 s1 =
          .ok (s2, cid2) ∧
        s2.artists.length = 1 ∧ s2.venues.length = 1 ∧
        ∃ ca cb, s2.concerts = [ca, cb] ∧ ca.id = cid1 ∧ cb.id = cid2 ∧
          ca.artistRef = cb.artistRef ∧ ca.venueRef = cb.venueRef) := by
  refine ⟨?_, ?_, ?_, ?_, ?_⟩
  · intro s name now a hfind
    unfold findOrCreateArtist
    rw [hfind]
  · intro s name now hfind
    unfold findOrCreateArtist
    rw [hfind]
  · intro s name now v hfind
    unfold findOrCreateVenue
    rw [hfind]
  · intro s name now hfind
    unfold findOrCreateVenue
    rw [hfind]
  · intro userId artistName venueName dn n1 n2 d1 r1 t1 d2 r2 t2
    have heq1 : logConcert userId artistName venueName d1 r1 n1 t1
        (freshStore userId dn) = .ok
        (({ users := [⟨userId, dn, 1⟩],
            artists := [⟨"d0", artistName, t1⟩],
            venues := [⟨"d1", venueName, "Unknown", "Unknown", "Unknown", t1⟩],
            concerts := [({ id := "d2", artistRef := "artists/d0",
                            venueRef := "venues/d1", date := d1,
                            userRef := "users/" ++ userId, rating := r1,
                            notes := jsOrString n1 "", createdAt := t1,
                            updatedAt := t1, artistName := none,
                            venueName := none } : ConcertDoc)],
            reviews := [], following := [], nextId := 3 } : Store), "d2") := by
      unfold logConcert findOrCreateArtist findOrCreateVenue freshStore freshId
      simp
      decide
    have heq2 : logConcert userId artistName venueName d2 r2 n2 t2
        ({ users := [⟨userId, dn, 1⟩],
           artists := [⟨"d0", artistName, t1⟩],
           venues := [⟨"d1", venueName, "Unknown", "Unknown", "Unknown", t1⟩],
           concerts := [({ id := "d2", artistRef := "artists/d0",
                           venueRef := "venues/d1", date := d1,
                           userRef := "users/" ++ userId, rating := r1,
                           notes := jsOrString n1 "", createdAt := t1,
                           updatedAt := t1, artistName := none,
                           venueName := none } : ConcertDoc)],
           reviews := [], following := [], nextId := 3 } : Store) = .ok
        (({ users := [⟨userId, dn, 2⟩],
            artists := [⟨"d0", artistName, t1⟩],
            venues := [⟨"d1", venueName, "Unknown", "Unknown", "Unknown", t1⟩],
            concerts := [({ id := "d2", artistRef := "artists/d0",
                            venueRef := "venues/d1", date := d1,
                            userRef := "users/" ++ userId, rating := r1,
                            notes := jsOrString n1 "", createdAt := t1,
                            updatedAt := t1, artistName := none,
                            venueName := none } : ConcertDoc),
                        ({ id := "d3", artistRef := "artists/d0",
                            venueRef := "venues/d1", date := d2,
                            userRef := "users/" ++ userId, rating := r2,
                            notes := jsOrString n2 "", createdAt := t2,
                            updatedAt := t2, artistName := none,
                            venueName := none } : ConcertDoc)],
            reviews := [], following := [], nextId := 4 } : Store), "d3") := by
      unfold logConcert findOrCreateArtist findOrCreateVenue freshId
      simp
      decide
    exact ⟨_, _, _, _, heq1, heq2, rfl, rfl, _, _, rfl, rfl, rfl, rfl, rfl⟩


/-- A store already holding an artist named "The Band". -/
def bandStore : Store :=
  { users := [], artists := [⟨"a1", "The Band", 0⟩], venues := [],
    concerts := [], reviews := [], following := [], nextId := 5 }

/-- Witness for C7: the artist lookup on a store already holding the name
returns the existing record's path and changes nothing. -/
theorem findOrCreate_exact_match_reuse_witness :
    findOrCreateArtist "The Band" 9 bandStore =
      (bandStore, "artists/" ++ "a1") :=
  findOrCreate_exact_match_reuse.1 bandStore "The Band" 9
    ⟨"a1", "The Band", 0⟩ (by decide)


/-! ## Claim C8: comment append -/

/-- C8: `addCommentToReview` rejects empty or whitespace-only text, and a
caller identity different from the `userId` argument, in both cases before
any mutation (the store is unchanged); on success it appends exactly one
comment child with the trimmed text and increments `commentsCount` by 1 in
one atomic step. -/
theorem addComment_spec :
    (∀ auth reviewId userId commentText now s,
      strTrim commentText = "" →
      (addComment auth reviewId userId commentText now s).1 = s ∧
      ∃ e, (addComment auth reviewId userId commentText now s).2 = .error e) ∧
    (∀ uid reviewId userId commentText now s, userId ≠ uid →
      (addComment (some uid) reviewId userId commentText now s).1 = s ∧
      ∃ e, (addComment (some uid) reviewId userId commentText now s).2 =
        .error e) ∧
    (∀ userId reviewId commentText now s r,
      reviewId ≠ "" → userId ≠ "" → strTrim commentText ≠ "" →
      s.reviews.find? (fun r0 => r0.id == reviewId) = some r →
      (addComment (some userId) reviewId userId commentText now s).2 =
        .ok () ∧
      (addComment (some userId) reviewId userId commentText now
          s).1.reviews.find? (fun r0 => r0.id == reviewId) =
        some { r with
          comments := r.comments ++
            [⟨freshId s, "users/" ++ userId, strTrim commentText, now⟩],
          commentsCount := r.commentsCount + 1 }) := by
  refine ⟨?_, ?_, ?_⟩
  · intro auth reviewId userId commentText now s htrim
    cases auth with
    | none => exact ⟨rfl, _, rfl⟩
    | some uid =>
      have hcond : reviewId = "" ∨ userId = "" ∨ commentText = "" ∨
          strTrim commentText = "" := Or.inr (Or.inr (Or.inr htrim))
      refine ⟨?_, "invalid-argument", ?_⟩ <;> simp [addComment, hcond]
  · intro uid reviewId userId commentText now s hne
    by_cases hcond : reviewId = "" ∨ userId = "" ∨ commentText = "" ∨
        strTrim commentText = ""
    · refine ⟨?_, "invalid-argument", ?_⟩ <;> simp [addComment, hcond]
    · refine ⟨?_, "permission-denied", ?_⟩ <;>
        simp [addComment, hcond, hne]
  · intro userId reviewId commentText now s r hrid huid htrim hfind
    have htext : commentText ≠ "" := by
      intro h
      rw [h] at htrim
      exact htrim (by decide)
    have hcond : ¬(reviewId = "" ∨ userId = "" ∨ commentText = "" ∨
        strTrim commentText = "") := by
      rintro (h | h | h | h)
      exacts [hrid h, huid h, htext h, htrim h]
    have hstep : addComment (some userId) reviewId userId commentText now s =
        (updateReview { s with nextId := s.nextId + 1 } reviewId (fun r0 =>
           { r0 with
             comments := r0.comments ++
               [⟨freshId s, "users/" ++ userId, strTrim commentText, now⟩],
             commentsCount := r0.commentsCount + 1 }),
         .ok ()) := by
      simp [addComment, hcond, hfind]
    rw [hstep]
    refine ⟨rfl, ?_⟩
    have hfind2 : ({ s with nextId := s.nextId + 1 } : Store).reviews.find?
        (fun r0 => r0.id == reviewId) = some r := hfind
    exact find?_updateReview _ reviewId
      (fun r0 =>
        { r0 with
          comments := r0.comments ++
            [⟨freshId s, "users/" ++ userId, strTrim commentText, now⟩],
          commentsCount := r0.commentsCount + 1 })
      (fun r0 => rfl) r hfind2

/-- Witness for C8 at a concrete store: a valid comment "nice!" (with
surrounding spaces trimmed) appended by "u2" to review "r1". -/
theorem addComment_spec_witness :
    (addComment (some "u2") "r1" "u2" " nice! " 9 sampleStore).2 = .ok () ∧
    (addComment (some "u2") "r1" "u2" " nice! " 9
        sampleStore).1.reviews.find? (fun r0 => r0.id == "r1") =
      some { sampleReview with
        comments := sampleReview.comments ++
          [⟨freshId sampleStore, "users/" ++ "u2", strTrim " nice! ", 9⟩],
        commentsCount := sampleReview.commentsCount + 1 } :=
  addComment_spec.2.2 "u2" "r1" " nice! " 9 sampleStore sampleReview
    (by decide) (by decide) (by decide) (by decide)

/-! ## Claim C9: the review read path and its index fallback -/

/-- Descending `mergeSort` by an integer key yields a list that is
pairwise non-increasing in that key. -/
theorem pairwise_desc_mergeSort {β : Type} (key : β → Int) (l : List β) :
    (l.mergeSort (fun a b => decide (key b ≤ key a))).Pairwise
      (fun a b => key b ≤ key a) := by
  have h : (l.mergeSort (fun a b => decide (key b ≤ key a))).Pairwise
      (fun a b => decide (key b ≤ key a) = true) :=
    List.sorted_mergeSort
      (fun a b c hab hbc => by
        simp only [decide_eq_true_eq] at *
        exact le_trans hbc hab)
      (fun a b => by
        simp only [Bool.or_eq_true, decide_eq_true_eq]
        exact le_total (key b) (key a))
      l
  exact h.imp (fun hab => by simpa using hab)

/-- C9: with the composite index available, `getConcertReviews` returns
the reviews matching the concert, ordered by creation time descending,
with `usingFallback = false`; exactly when the indexed query fails with an
index-building or index-missing error, the unordered fallback runs, is
sorted in memory by creation time descending, and `usingFallback = true`;
any other error propagates. -/
theorem getConcertReviews_spec (s : Store) (concertId : String) :
    (∃ l, getConcertReviews s concertId none = .ok (l, false) ∧
      List.Perm l (reviewsForConcert s concertId) ∧
      l.Pairwise (fun a b => b.createdAt ≤ a.createdAt)) ∧
    (∀ e : ErrInfo,
      strIncludes e.message "currently building" = true ∨
        strIncludes e.message "requires an index" = true →
      ∃ l, getConcertReviews s concertId (some e) = .ok (l, true) ∧
        List.Perm l (reviewsForConcert s concertId) ∧
        l.Pairwise (fun a b => b.createdAt ≤ a.createdAt)) ∧
    (∀ e : ErrInfo,
      strIncludes e.message "currently building" = false →
      strIncludes e.message "requires an index" = false →
      getConcertReviews s concertId (some e) = .error e) := by
  have hperm : List.Perm (sortReviewsByCreatedAtDesc
      (reviewsForConcert s concertId)) (reviewsForConcert s concertId) :=
    List.mergeSort_perm _ _
  have hsort : (sortReviewsByCreatedAtDesc
      (reviewsForConcert s concertId)).Pairwise
      (fun a b => b.createdAt ≤ a.createdAt) :=
    pairwise_desc_mergeSort (fun r : ReviewDoc => r.createdAt) _
  refine ⟨⟨_, rfl, hperm, hsort⟩, ?_, ?_⟩
  · intro e he
    rcases he with he | he
    · exact ⟨_, by simp [getConcertReviews, he], hperm, hsort⟩
    · refine ⟨_, ?_, hperm, hsort⟩
      by_cases hb : strIncludes e.message "currently building" = true
      · simp [getConcertReviews, hb]
      · simp [getConcertReviews, hb, he]
  · intro e h1 h2
    simp [getConcertReviews, h1, h2]

/-- Witness for C9 at a concrete error: an index-missing message triggers
the in-memory-sorted fallback with `usingFallback = true`. -/
theorem getConcertReviews_spec_witness :
    getConcertReviews sampleStore "c1"
        (some ⟨"failed-precondition", "The query requires an index"⟩) =
      .ok ([sampleReview], true) := by
  obtain ⟨l, heq, -, -⟩ := (getConcertReviews_spec sampleStore "c1").2.1
    ⟨"failed-precondition", "The query requires an index"⟩
    (Or.inr (by decide))
  have hr : reviewsForConcert sampleStore "c1" = [sampleReview] := by decide
  have hb : strIncludes "The query requires an index" "currently building" =
      false := by decide
  have hi : strIncludes "The query requires an index" "requires an index" =
      true := by decide
  simp [getConcertReviews, hb, hi, sortReviewsByCreatedAtDesc, hr]

/-! ## Claim C5: feed bound, order and resilience -/

/-- Every successful run of the feed pipeline returns either the empty
list or a 30-truncated, timestamp-descending sort of the assembled
activities. -/
theorem getFeedActivitiesE_ok_shape (b : FeedBackend) (l : List FeedItem)
    (h : getFeedActivitiesE b = .ok l) :
    l = [] ∨ ∃ acts : List FeedItem,
      l = (acts.mergeSort
        (fun a b => decide (b.timestamp ≤ a.timestamp))).take 30 := by
  simp only [getFeedActivitiesE] at h
  by_cases hemp : (getFollowingUsers b).isEmpty
  · rw [if_pos hemp] at h
    exact Or.inl (by injection h with h; exact h.symm)
  · rw [if_neg hemp] at h
    cases h1 : b.recentConcerts
        ((getFollowingUsers b).map (fun id => "users/" ++ id)) with
    | error e =>
      simp only [h1] at h
      exact Except.noConfusion h
    | ok concerts =>
      simp only [h1] at h
      cases h2 : concerts.mapM (concertFeedItem b) with
      | error e =>
        simp only [h2] at h
        exact Except.noConfusion h
      | ok concertItems =>
        simp only [h2] at h
        cases h3 : b.recentReviews
            ((getFollowingUsers b).map (fun id => "users/" ++ id)) with
        | error e =>
          simp only [h3] at h
          exact Except.noConfusion h
        | ok reviews =>
          simp only [h3] at h
          cases h4 : reviews.mapM (reviewFeedItem b) with
          | error e =>
            simp only [h4] at h
            exact Except.noConfusion h
          | ok reviewItems =>
            simp only [h4] at h
            refine Or.inr ⟨concertItems ++ reviewItems, ?_⟩
            simp only [Except.ok.injEq] at h
            exact h.symm

/-- C5: `getFeedActivities` returns at most 30 items in non-increasing
timestamp order; an empty following set yields the empty list; and any
failure anywhere in the pipeline (the following lookup included) resolves
to the empty list rather than an error. -/
theorem getFeedActivities_spec (b : FeedBackend) :
    (getFeedActivities b).length ≤ 30 ∧
    (getFeedActivities b).Pairwise (fun x y => y.timestamp ≤ x.timestamp) ∧
    (getFollowingUsers b = [] → getFeedActivities b = []) ∧
    (∀ e, b.followingDocs = .error e → getFeedActivities b = []) ∧
    (∀ e, getFeedActivitiesE b = .error e → getFeedActivities b = []) := by
  refine ⟨?_, ?_, ?_, ?_, ?_⟩
  · cases hE : getFeedActivitiesE b with
    | error e => simp [getFeedActivities, hE]
    | ok l =>
      simp only [getFeedActivities, hE]
      rcases getFeedActivitiesE_ok_shape b l hE with h | ⟨acts, h⟩
      · simp [h]
      · rw [h]
        exact List.length_take_le 30 _
  · cases hE : getFeedActivitiesE b with
    | error e => simp [getFeedActivities, hE]
    | ok l =>
      simp only [getFeedActivities, hE]
      rcases getFeedActivitiesE_ok_shape b l hE with h | ⟨acts, h⟩
      · simp [h]
      · rw [h]
        exact (pairwise_desc_mergeSort (fun x : FeedItem => x.timestamp)
          acts).sublist (List.take_sublist _ _)
  · intro hemp
    have h : getFeedActivitiesE b = .ok [] := by
      simp [getFeedActivitiesE, hemp]
    simp [getFeedActivities, h]
  · intro e he
    have hemp : getFollowingUsers b = [] := by
      simp [getFollowingUsers, he]
    have h : getFeedActivitiesE b = .ok [] := by
      simp [getFeedActivitiesE, hemp]
    simp [getFeedActivities, h]
  · intro e he
    simp [getFeedActivities, he]

/-- Witness for C5 at a concrete store backend: a user following nobody
gets the empty feed. -/
theorem getFeedActivities_spec_witness :
    getFeedActivities (FeedBackend.ofStore sampleStore "me") = [] :=
  (getFeedActivities_spec (FeedBackend.ofStore sampleStore "me")).2.2.1 rfl


/-! ## Claim C10: concerts logged without denormalized name fields -/

theorem concerts_findOrCreateArtist (name : String) (now : Int) (s : Store) :
    (findOrCreateArtist name now s).1.concerts = s.concerts := by
  unfold findOrCreateArtist
  cases s.artists.find? (fun a => a.name == name) <;> rfl

theorem concerts_findOrCreateVenue (name : String) (now : Int) (s : Store) :
    (findOrCreateVenue name now s).1.concerts = s.concerts := by
  unfold findOrCreateVenue
  cases s.venues.find? (fun v => v.name == name) <;> rfl

theorem mem_dedup_fold {l acc : List ConcertDoc} {x : ConcertDoc}
    (hx : x ∈ l.foldl (fun acc c =>
      if acc.any (fun c0 => c0.id == c.id) then acc else acc ++ [c]) acc) :
    x ∈ acc ∨ x ∈ l := by
  induction l generalizing acc with
  | nil => exact Or.inl hx
  | cons hd tl ih =>
    simp only [List.foldl_cons] at hx
    rcases ih hx with h | h
    · by_cases hdup : acc.any (fun c0 => c0.id == hd.id)
      · rw [if_pos hdup] at h
        exact Or.inl h
      · rw [if_neg hdup] at h
        rcases List.mem_append.mp h with h | h
        · exact Or.inl h
        · simp only [List.mem_singleton] at h
          exact Or.inr (h ▸ List.mem_cons_self hd tl)
    · exact Or.inr (List.mem_cons_of_mem hd h)

theorem mem_concertFieldQuery {s : Store} {term : String}
    {field : ConcertDoc → Option String} {c : ConcertDoc}
    (hc : c ∈ concertFieldQuery s term field) :
    inPrefixRange term (field c) = true := by
  have h1 := List.mem_of_mem_take hc
  rw [List.mem_mergeSort] at h1
  exact (List.mem_filter.mp h1).2

/-- C10: every concert record written by `logConcert` lacks the
`artistName` and `venueName` fields; consequently `searchConcerts` (whose
prefix-range queries filter on those fields) never returns such a concert,
and the `concert_logged` feed item built from such a concert carries
"Unknown Artist" and "Unknown Venue". -/
theorem logConcert_unsearchable_concerts :
    (∀ userId artistName venueName : String, ∀ date rating now : Int,
      ∀ notes : Option String, ∀ s s1 : Store, ∀ cid : String,
      logConcert userId artistName venueName date rating notes now s =
        .ok (s1, cid) →
      ∃ c, s1.concerts = s.concerts ++ [c] ∧ c.id = cid ∧
        c.artistName = none ∧ c.venueName = none) ∧
    (∀ s term c, c ∈ searchConcerts s term →
      c.artistName ≠ none ∨ c.venueName ≠ none) ∧
    (∀ b c item, c.artistName = none → c.venueName = none →
      concertFeedItem b c = .ok item →
      item.itemType = "concert_logged" ∧
      item.artistName = "Unknown Artist" ∧
      item.venueName = "Unknown Venue") := by
  refine ⟨?_, ?_, ?_⟩
  · intro userId artistName venueName date rating now notes s s1 cid h
    simp only [logConcert] at h
    split at h
    · simp only [Except.ok.injEq, Prod.mk.injEq] at h
      obtain ⟨hs1, hcid⟩ := h
      subst hs1
      refine ⟨⟨freshId (findOrCreateVenue venueName now
          (findOrCreateArtist artistName now s).1).1,
        (findOrCreateArtist artistName now s).2,
        (findOrCreateVenue venueName now
          (findOrCreateArtist artistName now s).1).2,
        date, "users/" ++ userId, rating, jsOrString notes "", now, now,
        none, none⟩, ?_, hcid, rfl, rfl⟩
      show ((findOrCreateVenue venueName now
          (findOrCreateArtist artistName now s).1).1.concerts ++ _) = _
      rw [concerts_findOrCreateVenue, concerts_findOrCreateArtist]
    · exact Except.noConfusion h
  · intro s term c hc
    simp only [searchConcerts] at hc
    have h := List.mem_of_mem_take hc
    rcases mem_dedup_fold h with h | h
    · refine Or.inl ?_
      intro hnone
      have := mem_concertFieldQuery h
      rw [hnone] at this
      exact Bool.noConfusion this
    · refine Or.inr ?_
      intro hnone
      have := mem_concertFieldQuery h
      rw [hnone] at this
      exact Bool.noConfusion this
  · intro b c item ha hv h
    cases hu : b.userByRef c.userRef with
    | error e =>
      simp only [concertFeedItem, hu] at h
      exact Except.noConfusion h
    | ok userOpt =>
      simp only [concertFeedItem, hu, Except.ok.injEq] at h
      subst h
      exact ⟨rfl, by simp [jsOrString, ha], by simp [jsOrString, hv]⟩

/-- The feed item assembled from `ownerConcert` (which has no
artist/venue name fields) for the sample store. -/
def ownerConcertFeedItem : FeedItem :=
  { id := "concert_" ++ ownerConcert.id, itemType := "concert_logged",
    userId := lastPathComponent ownerConcert.userRef,
    userDisplayName := "Alice",
    concertId := ownerConcert.id,
    concertName := "undefined at undefined",
    artistName := "Unknown Artist", venueName := "Unknown Venue",
    reviewId := none, timestamp := ownerConcert.createdAt }

/-- Witness for C10: the feed item built from a concrete concert without
name fields carries the placeholder names. -/
theorem logConcert_unsearchable_concerts_witness :
    ownerConcertFeedItem.itemType = "concert_logged" ∧
    ownerConcertFeedItem.artistName = "Unknown Artist" ∧
    ownerConcertFeedItem.venueName = "Unknown Venue" :=
  logConcert_unsearchable_concerts.2.2
    (FeedBackend.ofStore sampleStore "me") ownerConcert
    ownerConcertFeedItem rfl rfl rfl

end HarmonyHub
